import Mathlib

/-!
Verification of `src/packages/cli/src/lib/template-diff.ts`.

The development shallowly embeds the template-diff module: directory trees
become association lists from relative paths (lists of segments) to file
contents, the two exclusion regular expressions become an executable scanner
for patterns of the shape `(^|\/|\\)(alt1|...|altN)(\/|\\|$)` with the `i`
flag, the filtered recursive directory copy becomes a fold that copies a file
only when the filter accepts the file and every ancestor directory, and the
three watch callbacks of `prepareDiffDirectory` become pure per-event
functions returning `Except` (an `Except.error` models a rejected promise;
branches guarded by `.catch(() => {})` in the source swallow the error).
-/

namespace TemplateDiff

/-- A filesystem path as a list of segments. Joining with `/` recovers the
string form used by the regular-expression filters. -/
abbrev Path := List String

/-- A directory tree: an association list from relative paths to file
contents. -/
abbrev Tree := List (Path × String)

/-- First binding wins, like a map lookup. -/
def lookupT : Tree → Path → Option String
  | [], _ => none
  | (q, c) :: rest, p => if q = p then some c else lookupT rest p

/-- Overwriting write of one file (`copyFile` destination side). -/
def insertT (t : Tree) (p : Path) (c : String) : Tree := (p, c) :: t

/-- Removal of one path (`removeFile` effect on the tree). -/
def eraseT (t : Tree) (p : Path) : Tree := t.filter (fun e => decide (e.1 ≠ p))

/-- Node-style `path.relative` on segment lists: drop the common prefix, then
climb with `..` segments and descend into the remainder. -/
def relativePath : Path → Path → Path
  | [], p => p
  | _ :: bs, [] => List.replicate (bs.length + 1) ".."
  | b :: bs, q :: qs =>
    if b = q then relativePath bs qs
    else List.replicate (bs.length + 1) ".." ++ q :: qs

/-- Characters of a path joined with `/`, as produced by `joinPath` /
`relativePath` on a POSIX system. -/
def segsChars : List String → List Char
  | [] => []
  | [s] => s.toList
  | s :: t :: rest => s.toList ++ '/' :: segsChars (t :: rest)

/-- String form of a path. -/
def segsString (p : Path) : String := String.mk (segsChars p)

/-- Boolean directory-prefix test: `subdir a b` holds when `a` is an initial
segment of `b`. -/
def subdir : Path → Path → Bool
  | [], _ => true
  | _ :: _, [] => false
  | a :: ps, b :: qs => a == b && subdir ps qs

/-! ### The two exclusion regular expressions

Both regexes in `applyTemplateDiff` have the shape
`(^|\/|\\)(alt1|...|altN)(\/|\\|$)` with flag `i`, where each alternative is
a sequence of literal characters and, in the diff-pass regex, one unescaped
`.` (which in JavaScript matches any character except a line terminator).
`scanRe` is a direct matcher for exactly this shape: it scans the string and
reports whether some alternative matches at a position preceded by the start
of the string, `/` or `\`, and followed by `/`, `\` or the end. -/

/-- One regex token: a literal character (compared case-insensitively, flag
`i`) or the unescaped `.` wildcard. -/
inductive RTok where
  | lit : Char → RTok
  | anyChar : RTok

/-- Token match; `.` in JavaScript matches everything except line
terminators (the paths at hand contain none of the exotic ones). -/
def matchTok : RTok → Char → Bool
  | RTok.lit c, d => c.toLower == d.toLower
  | RTok.anyChar, d => d != '\n'

/-- Match one alternative against a prefix of the input, returning the
remainder on success. All alternatives are fixed-length, so no backtracking
is needed. -/
def matchAlt : List RTok → List Char → Option (List Char)
  | [], rest => some rest
  | _ :: _, [] => none
  | t :: ts, c :: cs => if matchTok t c then matchAlt ts cs else none

/-- A path separator as matched by the boundary groups of the regexes. -/
def isSep (c : Char) : Bool := c == '/' || c == '\\'

/-- The closing boundary group `(\/|\\|$)`. -/
def boundaryEnd : List Char → Bool
  | [] => true
  | c :: _ => isSep c

/-- Does some alternative match at the current position with a closing
boundary after it? -/
def matchHere (alts : List (List RTok)) (l : List Char) : Bool :=
  alts.any (fun a =>
    match matchAlt a l with
    | some rest => boundaryEnd rest
    | none => false)

/-- Scan the string for a boundary-delimited occurrence of an alternative.
The Boolean argument records whether the current position is preceded by the
start of the string or a separator (the opening boundary `(^|\/|\\)`). -/
def scanRe (alts : List (List RTok)) : Bool → List Char → Bool
  | _, [] => false
  | atB, c :: cs => (atB && matchHere alts (c :: cs)) || scanRe alts (isSep c) cs

/-- Literal alternative. -/
def lits (s : String) : List RTok := s.toList.map RTok.lit

/-- Alternatives of the template-pass regex
`(^|\/|\\)(dist|node_modules|\.cache|\.turbo|\.shopify|CHANGELOG\.md)(\/|\\|$)/i`;
every dot is escaped, hence literal. -/
def templateAlts : List (List RTok) :=
  [lits "dist", lits "node_modules", lits ".cache", lits ".turbo",
   lits ".shopify", lits "CHANGELOG.md"]

/-- Alternatives of the diff-pass regex
`(^|\/|\\)(dist|node_modules|\.cache|.turbo|package\.json|tsconfig\.json)(\/|\\|$)/i`;
the dot in `.turbo` is unescaped and is the wildcard token. -/
def diffAlts : List (List RTok) :=
  [lits "dist", lits "node_modules", lits ".cache",
   RTok.anyChar :: lits "turbo", lits "package.json", lits "tsconfig.json"]

/-- The `createFilter` closure of `applyTemplateDiff`: the tested name is the
path of the candidate file relative to the template directory (also for the
diff copy pass), and the file passes when the regex does not match and the
name is not in the skip list (`skipFiles` is absent for the diff pass). -/
def createFilter (templateDir : Path) (alts : List (List RTok))
    (skipFiles : Option (List String)) (filepath : Path) : Bool :=
  let filename := relativePath templateDir filepath
  !(scanRe alts true (segsChars filename)) &&
  !(match skipFiles with
    | some l => l.contains (segsString filename)
    | none => false)

/-- All ancestors of a relative path, from the root `[]` up to the path
itself. -/
def prefixesOf : Path → List Path
  | [] => [[]]
  | s :: rest => [] :: (prefixesOf rest).map (fun p => s :: p)

/-- A file is transferred by the recursive copy exactly when the filter
accepts it and each of its ancestor directories (fs-extra does not descend
into a rejected directory). The filter receives absolute paths. -/
def copyAccepted (filt : Path → Bool) (root : Path) (rel : Path) : Bool :=
  (prefixesOf rel).all (fun p => filt (root ++ p))

/-- `copyDirectory(src, target, filter)` from fs-extra: copy each accepted
file, overwriting existing destination files. -/
def copyDir (filt : Path → Bool) (root : Path) : Tree → Tree → Tree
  | [], tgt => tgt
  | (rel, c) :: rest, tgt =>
    copyDir filt root rest
      (if copyAccepted filt root rel then insertT tgt rel c else tgt)

/-! ### Package manifests and the merge step -/

/-- The `h2:diff` options object read from the diff manifest
(`skipFiles`, `skipDependencies`, `skipDevDependencies`; all optional). -/
structure DiffOptions where
  skipFiles : Option (List String)
  skipDependencies : Option (List String)
  skipDevDependencies : Option (List String)

/-- The `?? {}` default: an options object with every field absent. -/
def noOptions : DiffOptions := ⟨none, none, none⟩

/-- A parsed package manifest, with the fields the module touches. An absent
field is `none` (in JavaScript, an `undefined`, hence falsy, property). -/
structure PkgJson where
  dependencies : Option (List (String × String))
  devDependencies : Option (List (String × String))
  scripts : Option (List (String × String))
  h2Diff : Option DiffOptions

/-- Manifest with no fields. -/
def emptyPkg : PkgJson := ⟨none, none, none, none⟩

/-- Lookup in a JavaScript-object field, first binding wins. -/
def lookupKV : List (String × String) → String → Option String
  | [], _ => none
  | (q, v) :: rest, k => if q = k then some v else lookupKV rest k

/-- `obj[k] = v`: replace the binding in place, or append a fresh one. -/
def setKV : List (String × String) → String → String → List (String × String)
  | [], k, v => [(k, v)]
  | (q, w) :: rest, k, v =>
    if q = k then (k, v) :: rest else (q, w) :: setKV rest k v

/-- `delete obj[k]`: drop the binding for `k`, keep everything else. -/
def delKV : List (String × String) → String → List (String × String)
  | [], _ => []
  | (q, w) :: rest, k => if q = k then delKV rest k else (q, w) :: delKV rest k

/-- Take the source's value for a top-level key when present, else keep the
destination's. -/
def overrideKey {α : Type} : Option α → Option α → Option α
  | some v, _ => some v
  | none, d => d

/-- Modelled from the spec: the structural merge performed by
`mergePackageJson` (defined in `./file.js`, which is not among the sources).
Per the spec, keys from the source document override same-named keys in the
destination document, except the keys listed in `ignoredKeys` — here the
reserved `h2:diff` key, which must never leak from the source into the
merged output. The destination manifest is the template's `package.json`, as
deposited in the target by the first copy pass; the source is the diff's. -/
def mergeDocs (dest source : PkgJson) : PkgJson :=
  { dependencies := overrideKey source.dependencies dest.dependencies,
    devDependencies := overrideKey source.devDependencies dest.devDependencies,
    scripts := overrideKey source.scripts dest.scripts,
    h2Diff := dest.h2Diff }

/-- Package whose version the transform pins back. -/
def cliHydrogen : String := "@shopify/cli-hydrogen"

/-- First step of the `onResult` transform: when both the merged manifest and
the template manifest have a (truthy) `dependencies` object, restore the
template's declared version of `@shopify/cli-hydrogen`, with `'*'` as the
fallback when the template declares none. -/
def pinCliHydrogen (templatePkgJson : PkgJson) (p : PkgJson) : PkgJson :=
  match p.dependencies, templatePkgJson.dependencies with
  | some deps, some tdeps =>
    { p with dependencies := some (setKV deps cliHydrogen
        ((lookupKV tdeps cliHydrogen).getD "*")) }
  | _, _ => p

/-! ### The `\s+--diff` replacement

`scriptLine.replace(/\s+--diff/, '')` removes the single leftmost match of
one-or-more whitespace characters followed by the literal `--diff` (the
regex has no `g` flag). The greedy `\s+` always consumes a whole whitespace
run, since `-` is not whitespace. -/

/-- JavaScript `\s` for the characters occurring in script lines (the full
class also contains Unicode space separators, which are irrelevant here). -/
def isWS (c : Char) : Bool :=
  c == ' ' || c == '\t' || c == '\n' || c == '\r' || c == '\x0b' || c == '\x0c'

/-- Boolean prefix test on character lists. -/
def beginsWith : List Char → List Char → Bool
  | [], _ => true
  | _ :: _, [] => false
  | p :: ps, c :: cs => p == c && beginsWith ps cs

/-- Does `/\s+--diff/` match starting exactly here? On success, return the
input with the matched characters removed from the front. -/
def wsDiffAt (l : List Char) : Option (List Char) :=
  let ws := l.takeWhile isWS
  let rest := l.dropWhile isWS
  if ws.isEmpty then none
  else if beginsWith ('-' :: '-' :: 'd' :: 'i' :: 'f' :: 'f' :: []) rest then
    some (rest.drop 6)
  else none

/-- `replace(/\s+--diff/, '')` on characters: splice out the leftmost match,
leave everything else untouched; at most one occurrence is removed. -/
def stripDiffChars : List Char → List Char
  | [] => []
  | c :: cs =>
    match wsDiffAt (c :: cs) with
    | some rest => rest
    | none => c :: stripDiffChars cs

/-- `scriptLine.replace(/\s+--diff/, '')`. -/
def stripDiff (s : String) : String := String.mk (stripDiffChars s.toList)

/-- Is there any occurrence of whitespace followed by `--diff` (what the
claim calls the flag token preceded by whitespace)? -/
def containsWsDiff : List Char → Bool
  | [] => false
  | c :: cs => (wsDiffAt (c :: cs)).isSome || containsWsDiff cs

/-- One iteration of the `for (const key of ['build', 'dev', 'preview'])`
loop: when the script value is present and truthy (the empty string is
falsy), replace it by its stripped form. -/
def stripScriptKey (scripts : List (String × String)) (k : String) :
    List (String × String) :=
  match lookupKV scripts k with
  | some s => if s = "" then scripts else setKV scripts k (stripDiff s)
  | none => scripts

/-- The script-stripping loop of the `onResult` transform, in source order:
`build`, then `dev`, then `preview`. -/
def stripScripts (p : PkgJson) : PkgJson :=
  match p.scripts with
  | some scr =>
    { p with scripts := some (stripScriptKey
        (stripScriptKey (stripScriptKey scr "build") "dev") "preview") }
  | none => p

/-- `if (diffOptions.skipDependencies && pkgJson.dependencies) delete ...`. -/
def applySkipDeps (diffOptions : DiffOptions) (p : PkgJson) : PkgJson :=
  match diffOptions.skipDependencies, p.dependencies with
  | some skips, some deps =>
    { p with dependencies := some (skips.foldl delKV deps) }
  | _, _ => p

/-- `if (diffOptions.skipDevDependencies && pkgJson.devDependencies)
delete ...`. -/
def applySkipDevDeps (diffOptions : DiffOptions) (p : PkgJson) : PkgJson :=
  match diffOptions.skipDevDependencies, p.devDependencies with
  | some skips, some deps =>
    { p with devDependencies := some (skips.foldl delKV deps) }
  | _, _ => p

/-- The whole manifest merge step of `applyTemplateDiff`: the structural
merge followed by the `onResult` transform (pin the CLI package, strip
`--diff` from the three scripts, apply the two skip lists), in source
order. -/
def mergeManifests (templatePkgJson diffPkgJson : PkgJson) : PkgJson :=
  let diffOptions := diffPkgJson.h2Diff.getD noOptions
  applySkipDevDeps diffOptions
    (applySkipDeps diffOptions
      (stripScripts (pinCliHydrogen templatePkgJson
        (mergeDocs templatePkgJson diffPkgJson))))

/-- Stand-in serialization for writing the merged manifest back into the
target tree as the contents of `package.json`. -/
def serializeKVs : List (String × String) → String
  | [] => ""
  | (k, v) :: rest => k ++ "=" ++ v ++ ";" ++ serializeKVs rest

/-- Serialization of an optional object field. -/
def serializeOpt : Option (List (String × String)) → String
  | none => "-"
  | some l => serializeKVs l

/-- Serialization of a manifest. -/
def serializePkg (p : PkgJson) : String :=
  serializeOpt p.dependencies ++ "|" ++ serializeOpt p.devDependencies ++ "|" ++
    serializeOpt p.scripts

/-- The relative path of the manifest under every directory root. -/
def pkgJsonPath : Path := ["package.json"]

/-- `applyTemplateDiff(targetDirectory, diffDirectory, templateDir)`.
`template` and `diff` are the trees on disk under the two source roots;
`diffPkgJson` and `templatePkgJson` are the results of the two
`readAndParsePackageJson` calls awaited before anything else (`none` models
a missing or unparsable manifest, i.e. a rejected promise). On success the
returned tree is the target after the template copy pass, the diff copy pass
(in that order, both with `createFilter`) and the manifest merge, which
writes the merged manifest to the target's `package.json`. -/
def applyTemplateDiff (templateDir diffDirectory : Path)
    (template diff : Tree) (diffPkgJson templatePkgJson : Option PkgJson)
    (target : Tree) : Except String Tree :=
  match diffPkgJson, templatePkgJson with
  | some dPkg, some tPkg =>
    let diffOptions := dPkg.h2Diff.getD noOptions
    let t1 := copyDir
      (createFilter templateDir templateAlts (some (diffOptions.skipFiles.getD [])))
      templateDir template target
    let t2 := copyDir (createFilter templateDir diffAlts none) diffDirectory diff t1
    Except.ok (insertT t2 pkgJsonPath (serializePkg (mergeManifests tPkg dPkg)))
  | _, _ => Except.error "Cannot read or parse package.json"

/-! ### The three watch callbacks of `prepareDiffDirectory`

Each handler is embedded per event, for an event that passed the watch's
ignore filter, with `rel` the event path made relative to the watched root
(`event.path = watchedRoot ++ rel`; `joinPath(root, relativePath(watched,
event.path))` and `event.path.replace(watchedDir, otherDir)` both reduce to
attaching `rel` to the other root, since the watcher only reports paths
under its root). A result `Except.error` models the per-event promise
rejecting; `Except.ok` with the new target tree models success, and the
branches that carry `.catch(() => {})` in the source map a failed operation
to `Except.ok` with the tree unchanged. -/

/-- Event types delivered by the watch backend. -/
inductive EType where
  | create
  | update
  | delete
deriving DecidableEq

/-- `removeFile`: fails (promise rejection) when the path is absent. -/
def removeT (t : Tree) (p : Path) : Except String Tree :=
  if (lookupT t p).isSome then Except.ok (eraseT t p) else Except.error "ENOENT"

/-- `copyFile(src / srcRel, dst / dstRel)`: fails when the source is
absent, overwrites the destination otherwise. -/
def copyFileT (src : Tree) (srcRel : Path) (dst : Tree) (dstRel : Path) :
    Except String Tree :=
  match lookupT src srcRel with
  | some c => Except.ok (insertT dst dstRel c)
  | none => Except.error "ENOENT"

/-- Per-event body of the diff-directory watch: on `delete`, check
`fileExists(fileInTemplate)` and either restore the template version into
the target or remove the target path, with the whole chain guarded by
`.catch(() => {})`; on `create`/`update`, `copyFile(event.path, targetFile)`
with no catch. -/
def handleDiffEvent (templateTree diffTree targetTree : Tree) (ty : EType)
    (rel : Path) : Except String Tree :=
  match ty with
  | EType.delete =>
    match (match lookupT templateTree rel with
           | some _ => copyFileT templateTree rel targetTree rel
           | none => removeT targetTree rel) with
    | Except.ok t => Except.ok t
    | Except.error _ => Except.ok targetTree
  | _ => copyFileT diffTree rel targetTree rel

/-- Per-event body of the template-directory watch: first the diff-priority
check `if (await fileExists(fileInDiff)) return;` (before the type
dispatch), then on `delete` a `remove(targetFile).catch(() => {})`, and on
`create`/`update` a `copyFile(event.path, targetFile)` with no catch. -/
def handleTemplateEvent (templateTree diffTree targetTree : Tree) (ty : EType)
    (rel : Path) : Except String Tree :=
  if (lookupT diffTree rel).isSome then Except.ok targetTree
  else
    match ty with
    | EType.delete =>
      match removeT targetTree rel with
      | Except.ok t => Except.ok t
      | Except.error _ => Except.ok targetTree
    | _ => copyFileT templateTree rel targetTree rel

/-- Per-event body of the target-directory watch (generated `d.ts`
write-back): `copyFile(event.path, joinPath(diffDirectory, rel))` for every
event type, with no catch and no existence check. -/
def handleTargetEvent (targetTree diffTree : Tree) (_ty : EType) (rel : Path) :
    Except String Tree :=
  copyFileT targetTree rel diffTree rel

/-! ### `cleanup`

`cleanup: async () => { await Promise.all(subscriptions.map((sub) =>
sub?.unsubscribe())); await remove(targetDirectory); }`. The `map` invokes
every unsubscribe before anything is awaited, so each subscription's
unsubscribe is attempted regardless of the others' outcomes; `Promise.all`
rejects as soon as one of them rejects, in which case the `await` throws and
`remove(targetDirectory)` is never reached. A subscription is `none` when
the watch backend failed to load (`pw?` short-circuits to a resolved
`undefined`). -/

/-- Outcome of one `cleanup` call: which unsubscribes were invoked, whether
the target directory removal was reached, and the propagated rejection if
any. -/
structure CleanupOutcome where
  unsubscribeAttempted : List Bool
  targetRemoved : Bool
  raised : Option String
deriving DecidableEq

/-- The rejection `Promise.all` settles on, if any unsubscribe rejects. -/
def firstErr : List (Option (Except String Unit)) → Option String
  | [] => none
  | r :: rest =>
    match r with
    | some (Except.error e) => some e
    | _ => firstErr rest

/-- Did this subscription's unsubscribe succeed (an absent subscription
counts as success)? -/
def okSub : Option (Except String Unit) → Bool
  | some (Except.error _) => false
  | _ => true

/-- The `cleanup` closure, as a function of each subscription's unsubscribe
outcome. -/
def cleanup (subs : List (Option (Except String Unit))) : CleanupOutcome :=
  match firstErr subs with
  | some e =>
    { unsubscribeAttempted := subs.map (fun _ => true), targetRemoved := false,
      raised := some e }
  | none =>
    { unsubscribeAttempted := subs.map (fun _ => true), targetRemoved := true,
      raised := none }

/-! ### Basic lemmas about trees, key-value objects and the scanner -/

theorem lookupT_cons (q : Path) (c : String) (t : Tree) (p : Path) :
    lookupT ((q, c) :: t) p = if q = p then some c else lookupT t p := rfl

theorem eraseT_of_lookup_none (t : Tree) (p : Path) (h : lookupT t p = none) :
    eraseT t p = t := by
  induction t with
  | nil => rfl
  | cons e rest ih =>
    obtain ⟨q, c⟩ := e
    rw [lookupT_cons] at h
    by_cases hq : q = p
    · rw [if_pos hq] at h
      exact absurd h (by simp)
    · rw [if_neg hq] at h
      unfold eraseT
      rw [List.filter_cons]
      simp only [decide_eq_true_eq]
      rw [if_pos (by simpa using hq)]
      have := ih h
      unfold eraseT at this
      rw [this]

theorem lookupKV_setKV_self : ∀ (l : List (String × String)) (k v : String),
    lookupKV (setKV l k v) k = some v
  | [], k, v => by simp [setKV, lookupKV]
  | (q, w) :: rest, k, v => by
    unfold setKV
    by_cases hq : q = k
    · simp [hq, lookupKV]
    · rw [if_neg hq]
      unfold lookupKV
      rw [if_neg hq]
      exact lookupKV_setKV_self rest k v

theorem lookupKV_cons (p w : String) (rest : List (String × String))
    (q : String) :
    lookupKV ((p, w) :: rest) q = if p = q then some w else lookupKV rest q := rfl

theorem lookupKV_setKV_ne : ∀ (l : List (String × String)) (k v q : String),
    q ≠ k → lookupKV (setKV l k v) q = lookupKV l q
  | [], k, v, q, h => by
    unfold setKV
    rw [lookupKV_cons, if_neg (fun e : k = q => h e.symm)]
  | (p, w) :: rest, k, v, q, h => by
    unfold setKV
    by_cases hp : p = k
    · subst hp
      rw [if_pos rfl, lookupKV_cons, lookupKV_cons,
        if_neg (fun e : p = q => h e.symm), if_neg (fun e : p = q => h e.symm)]
    · rw [if_neg hp, lookupKV_cons, lookupKV_cons]
      by_cases hpq : p = q
      · rw [if_pos hpq, if_pos hpq]
      · rw [if_neg hpq, if_neg hpq]
        exact lookupKV_setKV_ne rest k v q h

theorem lookupKV_delKV_ne : ∀ (l : List (String × String)) (k q : String),
    q ≠ k → lookupKV (delKV l k) q = lookupKV l q
  | [], _, _, _ => rfl
  | (p, w) :: rest, k, q, h => by
    unfold delKV
    by_cases hp : p = k
    · rw [if_pos hp, lookupKV_cons, if_neg (fun e : p = q => h (e.symm.trans hp))]
      exact lookupKV_delKV_ne rest k q h
    · rw [if_neg hp, lookupKV_cons, lookupKV_cons]
      by_cases hpq : p = q
      · rw [if_pos hpq, if_pos hpq]
      · rw [if_neg hpq, if_neg hpq]
        exact lookupKV_delKV_ne rest k q h

theorem lookupKV_foldl_delKV : ∀ (skips : List String)
    (d : List (String × String)) (k : String), k ∉ skips →
    lookupKV (skips.foldl delKV d) k = lookupKV d k
  | [], _, _, _ => rfl
  | s :: rest, d, k, h => by
    rw [List.foldl_cons]
    rw [lookupKV_foldl_delKV rest (delKV d s) k (fun m => h (List.mem_cons_of_mem s m))]
    exact lookupKV_delKV_ne d s k (fun e => h (e ▸ List.mem_cons_self s rest))

theorem copyDir_lookup_notin (f : Path → Bool) (root : Path) :
    ∀ (src tgt : Tree) (rel : Path), rel ∉ src.map Prod.fst →
    lookupT (copyDir f root src tgt) rel = lookupT tgt rel
  | [], _, _, _ => rfl
  | (q, c) :: rest, tgt, rel, h => by
    have hq : q ≠ rel := fun e => h (by simp [e])
    have hrest : rel ∉ rest.map Prod.fst := fun m => h (by simp [m])
    unfold copyDir
    rw [copyDir_lookup_notin f root rest _ rel hrest]
    by_cases ha : copyAccepted f root q = true
    · rw [if_pos ha]
      unfold insertT
      rw [lookupT_cons, if_neg hq]
    · rw [if_neg ha]

theorem copyDir_lookup_found (f : Path → Bool) (root : Path) :
    ∀ (src tgt : Tree) (rel : Path) (c : String),
    (src.map Prod.fst).Nodup → lookupT src rel = some c →
    copyAccepted f root rel = true →
    lookupT (copyDir f root src tgt) rel = some c
  | [], _, _, _, _, h, _ => by simp [lookupT] at h
  | (q, cc) :: rest, tgt, rel, c, hnd, h, hacc => by
    rw [lookupT_cons] at h
    unfold copyDir
    by_cases hq : q = rel
    · subst hq
      rw [if_pos rfl] at h
      have hcc : cc = c := by simpa using h
      subst hcc
      have hrest : q ∉ rest.map Prod.fst := by
        have hn : (q :: rest.map Prod.fst).Nodup := by simpa using hnd
        exact (List.nodup_cons.mp hn).1
      rw [copyDir_lookup_notin f root rest _ q hrest]
      rw [if_pos hacc]
      unfold insertT
      rw [lookupT_cons, if_pos rfl]
    · rw [if_neg hq] at h
      have hnd2 : (rest.map Prod.fst).Nodup := by
        have hn : (q :: rest.map Prod.fst).Nodup := by simpa using hnd
        exact (List.nodup_cons.mp hn).2
      exact copyDir_lookup_found f root rest _ rel c hnd2 h hacc

theorem mem_prefixesOf_self : ∀ (p : Path), p ∈ prefixesOf p
  | [] => by simp [prefixesOf]
  | s :: rest => by
    unfold prefixesOf
    exact List.mem_cons.mpr
      (Or.inr (List.mem_map.mpr ⟨rest, mem_prefixesOf_self rest, rfl⟩))

theorem copyAccepted_self (f : Path → Bool) (root rel : Path)
    (h : copyAccepted f root rel = true) : f (root ++ rel) = true := by
  unfold copyAccepted at h
  exact List.all_eq_true.mp h rel (mem_prefixesOf_self rel)

theorem scan_append_sep (alts : List (List RTok)) (ys : List Char)
    (h : scanRe alts true ys = true) :
    ∀ (xs : List Char) (b : Bool), scanRe alts b (xs ++ '/' :: ys) = true
  | [], b => by
    rw [List.nil_append]
    unfold scanRe
    have hsep : isSep '/' = true := by decide
    rw [hsep, h, Bool.or_true]
  | x :: xs, b => by
    rw [List.cons_append]
    unfold scanRe
    rw [scan_append_sep alts ys h xs (isSep x), Bool.or_true]

theorem segsChars_cons (s : String) (l : List String) (h : l ≠ []) :
    segsChars (s :: l) = s.toList ++ '/' :: segsChars l := by
  cases l with
  | nil => exact absurd rfl h
  | cons t rest => rfl

theorem scan_segs_last (alts : List (List RTok)) :
    ∀ (pre : List String) (s : String), scanRe alts true s.toList = true →
    scanRe alts true (segsChars (pre ++ [s])) = true
  | [], s, h => h
  | x :: pre, s, h => by
    rw [List.cons_append, segsChars_cons x (pre ++ [s]) (by simp)]
    exact scan_append_sep alts _ (scan_segs_last alts pre s h) x.toList true

theorem relPath_append : ∀ (T D rel : Path), subdir D T = false →
    ∃ pre, relativePath T (D ++ rel) = pre ++ rel
  | T, [], rel, h => by simp [subdir] at h
  | [], q :: qs, rel, _ => ⟨q :: qs, by simp [relativePath]⟩
  | b :: bs, q :: qs, rel, h => by
    rw [List.cons_append]
    unfold relativePath
    by_cases hbq : b = q
    · rw [if_pos hbq]
      have hsub : subdir qs bs = false := by
        unfold subdir at h
        rw [hbq] at h
        simpa using h
      exact relPath_append bs qs rel hsub
    · rw [if_neg hbq]
      exact ⟨List.replicate (bs.length + 1) ".." ++ q :: qs, by simp⟩

theorem diffFilter_pkgjson (T D : Path) (h : subdir D T = false) :
    createFilter T diffAlts none (D ++ pkgJsonPath) = false := by
  obtain ⟨pre, hp⟩ := relPath_append T D pkgJsonPath h
  have hscan : scanRe diffAlts true (segsChars (pre ++ ["package.json"])) = true :=
    scan_segs_last diffAlts pre "package.json" (by decide)
  simp only [createFilter, pkgJsonPath] at hp ⊢
  rw [hp, hscan]
  rfl

theorem pinCliHydrogen_scripts (t p : PkgJson) :
    (pinCliHydrogen t p).scripts = p.scripts := by
  cases hpd : p.dependencies <;> cases htd : t.dependencies <;>
    simp [pinCliHydrogen, hpd, htd]

theorem applySkipDeps_scripts (o : DiffOptions) (p : PkgJson) :
    (applySkipDeps o p).scripts = p.scripts := by
  cases hs : o.skipDependencies <;> cases hd : p.dependencies <;>
    simp [applySkipDeps, hs, hd]

theorem applySkipDevDeps_scripts (o : DiffOptions) (p : PkgJson) :
    (applySkipDevDeps o p).scripts = p.scripts := by
  cases hs : o.skipDevDependencies <;> cases hd : p.devDependencies <;>
    simp [applySkipDevDeps, hs, hd]

theorem stripScripts_deps (p : PkgJson) :
    (stripScripts p).dependencies = p.dependencies := by
  cases hs : p.scripts <;> simp [stripScripts, hs]

theorem applySkipDevDeps_deps (o : DiffOptions) (p : PkgJson) :
    (applySkipDevDeps o p).dependencies = p.dependencies := by
  cases hs : o.skipDevDependencies <;> cases hd : p.devDependencies <;>
    simp [applySkipDevDeps, hs, hd]

theorem stripScriptKey_other (l : List (String × String)) (k q : String)
    (h : q ≠ k) : lookupKV (stripScriptKey l k) q = lookupKV l q := by
  unfold stripScriptKey
  cases hl : lookupKV l k with
  | none => rfl
  | some s =>
    dsimp only
    by_cases hs : s = ""
    · rw [if_pos hs]
    · rw [if_neg hs]
      exact lookupKV_setKV_ne l k (stripDiff s) q h

theorem stripScriptKey_self (l : List (String × String)) (k s : String)
    (hl : lookupKV l k = some s) (hs : s ≠ "") :
    lookupKV (stripScriptKey l k) k = some (stripDiff s) := by
  unfold stripScriptKey
  rw [hl]
  dsimp only
  rw [if_neg hs]
  exact lookupKV_setKV_self l k (stripDiff s)

theorem firstErr_none_iff : ∀ (subs : List (Option (Except String Unit))),
    firstErr subs = none ↔ subs.all okSub = true
  | [] => by simp [firstErr]
  | r :: rest => by
    unfold firstErr
    cases r with
    | none => simpa [okSub] using firstErr_none_iff rest
    | some x =>
      cases x with
      | ok u => simpa [okSub] using firstErr_none_iff rest
      | error e => simp [okSub]

/-- Is the promise fulfilled? -/
def isOkE {ε α : Type} : Except ε α → Bool
  | Except.ok _ => true
  | Except.error _ => false

/-! ### The claims -/

/-- C2: a delete event of the diff-directory watch that passed the ignore
filter always results in exactly one of the two actions: when the relative
path exists under the template directory the target file is overwritten with
the template's contents, otherwise the target path is removed; a failure of
either action is swallowed (the handler still fulfills, and a failed removal
leaves the target tree unchanged, which for an absent path coincides with
the removal), so no delete event is dropped without one of the two actions
being attempted. -/
theorem c2_diff_delete_restores_or_removes
    (templateTree diffTree targetTree : Tree) (rel : Path) :
    handleDiffEvent templateTree diffTree targetTree EType.delete rel =
      Except.ok (match lookupT templateTree rel with
        | some c => insertT targetTree rel c
        | none => eraseT targetTree rel) := by
  unfold handleDiffEvent
  cases ht : lookupT templateTree rel with
  | some c => simp [copyFileT, ht]
  | none =>
    cases htg : lookupT targetTree rel with
    | some c => simp [removeT, htg]
    | none => simp [removeT, htg, eraseT_of_lookup_none targetTree rel htg]

/-- C6: a create or update event of the template-directory watch that passed
the ignore filter copies nothing and leaves the target unchanged when the
relative path already exists under the diff directory; only when the diff
directory lacks the path is the template's file copied to the target. -/
theorem c6_template_create_diff_priority
    (templateTree diffTree targetTree : Tree) (rel : Path) (ty : EType)
    (hty : ty ≠ EType.delete) :
    ((lookupT diffTree rel).isSome = true →
      handleTemplateEvent templateTree diffTree targetTree ty rel =
        Except.ok targetTree) ∧
    (∀ c, lookupT diffTree rel = none → lookupT templateTree rel = some c →
      handleTemplateEvent templateTree diffTree targetTree ty rel =
        Except.ok (insertT targetTree rel c)) := by
  constructor
  · intro hin
    simp [handleTemplateEvent, hin]
  · intro c hd ht
    cases ty with
    | delete => exact absurd rfl hty
    | create => simp [handleTemplateEvent, hd, copyFileT, ht]
    | update => simp [handleTemplateEvent, hd, copyFileT, ht]

/-- C6 witness: with a file only in the template tree, a create event copies
it to the target. -/
theorem c6_witness :
    handleTemplateEvent [(["a"], "x")] [] [] EType.create ["a"] =
      Except.ok (insertT [] ["a"] "x") :=
  (c6_template_create_diff_priority [(["a"], "x")] [] [] ["a"] EType.create
    (by intro h; cases h)).2 "x" rfl rfl

/-- C7 counterexample: a delete event of the template-directory watch whose
relative path still exists under the diff directory leaves the target file
in place — the path is not deleted, refuting the claim that every such
delete event deletes the corresponding target path. -/
theorem c7_counterexample :
    handleTemplateEvent [] [(["a"], "d")] [(["a"], "t")] EType.delete ["a"] =
      Except.ok [(["a"], "t")] ∧
    lookupT [(["a"], "t")] ["a"] = some "t" := ⟨rfl, rfl⟩

/-- C7 (amended): a delete event of the template-directory watch deletes the
corresponding target path only when the relative path does not exist under
the diff directory (the diff-priority existence check runs before the type
dispatch and makes the handler return early otherwise); a failure of the
deletion is swallowed, leaving the target unchanged. -/
theorem c7_template_delete_guarded
    (templateTree diffTree targetTree : Tree) (rel : Path) :
    (lookupT diffTree rel = none →
      handleTemplateEvent templateTree diffTree targetTree EType.delete rel =
        Except.ok (eraseT targetTree rel)) ∧
    ((lookupT diffTree rel).isSome = true →
      handleTemplateEvent templateTree diffTree targetTree EType.delete rel =
        Except.ok targetTree) := by
  constructor
  · intro hd
    cases htg : lookupT targetTree rel with
    | some c => simp [handleTemplateEvent, hd, removeT, htg]
    | none =>
      simp [handleTemplateEvent, hd, removeT, htg,
        eraseT_of_lookup_none targetTree rel htg]
  · intro hin
    simp [handleTemplateEvent, hin]

/-- C7 witness: both branches of the amended statement at concrete trees. -/
theorem c7_witness :
    handleTemplateEvent [] [] [(["a"], "t")] EType.delete ["a"] =
      Except.ok (eraseT [(["a"], "t")] ["a"]) ∧
    handleTemplateEvent [] [(["a"], "d")] [(["a"], "t")] EType.delete ["a"] =
      Except.ok [(["a"], "t")] :=
  ⟨(c7_template_delete_guarded [] [] [(["a"], "t")] ["a"]).1 rfl,
   (c7_template_delete_guarded [] [(["a"], "d")] [(["a"], "t")] ["a"]).2 rfl⟩

/-- C3 counterexample: with a single subscription whose unsubscribe rejects,
`cleanup` propagates the rejection and the removal of the target directory
is not attempted — refuting the part of the claim that says the removal is
attempted even when some unsubscribe throws. -/
theorem c3_counterexample :
    (cleanup [some (Except.error "boom")]).targetRemoved = false ∧
    (cleanup [some (Except.error "boom")]).unsubscribeAttempted = [true] ∧
    (cleanup [some (Except.error "boom")]).raised = some "boom" :=
  ⟨rfl, rfl, rfl⟩

/-- C3 (amended): `cleanup` starts the unsubscribe of every subscription in
parallel, so a failed unsubscribe prevents none of the others from being
attempted; but the recursive removal of the target directory is reached
exactly when every unsubscribe succeeded — when one rejects, `Promise.all`
rejects and the removal is not attempted. -/
theorem c3_cleanup_parallel_but_removal_gated
    (subs : List (Option (Except String Unit))) :
    (cleanup subs).unsubscribeAttempted = subs.map (fun _ => true) ∧
    (cleanup subs).targetRemoved = subs.all okSub := by
  unfold cleanup
  cases hf : firstErr subs with
  | some e =>
    dsimp only
    refine ⟨rfl, ?_⟩
    cases hall : subs.all okSub with
    | false => rfl
    | true => rw [(firstErr_none_iff subs).mpr hall] at hf; cases hf
  | none =>
    dsimp only
    exact ⟨rfl, ((firstErr_none_iff subs).mp hf).symm⟩

/-- C8 counterexample: a create event of the diff-directory watch whose
source file is gone makes the per-event copy fail, and the failure is not
caught — the handler's promise rejects, refuting the claim that every
per-event copy failure is swallowed in both branches of all three
handlers. -/
theorem c8_counterexample :
    handleDiffEvent [] [] [] EType.create ["a"] = Except.error "ENOENT" := rfl

/-- C8 (amended): only the delete branches swallow per-event failures: the
diff-watch delete handler and the template-watch delete handler always
fulfill, whereas the create/update copy of the diff watch, the create/update
copy of the template watch and the target-watch copy-back carry no catch and
reject when the source file is absent. -/
theorem c8_only_delete_branches_swallow
    (templateTree diffTree targetTree : Tree) (rel : Path) :
    isOkE (handleDiffEvent templateTree diffTree targetTree EType.delete rel)
      = true ∧
    isOkE (handleTemplateEvent templateTree diffTree targetTree EType.delete rel)
      = true ∧
    (lookupT diffTree rel = none →
      handleDiffEvent templateTree diffTree targetTree EType.create rel =
        Except.error "ENOENT") ∧
    (lookupT diffTree rel = none → lookupT templateTree rel = none →
      handleTemplateEvent templateTree diffTree targetTree EType.create rel =
        Except.error "ENOENT") ∧
    (lookupT targetTree rel = none →
      handleTargetEvent targetTree diffTree EType.update rel =
        Except.error "ENOENT") := by
  refine ⟨?_, ?_, ?_, ?_, ?_⟩
  · unfold handleDiffEvent
    cases ht : lookupT templateTree rel with
    | some c => simp [copyFileT, ht, isOkE]
    | none =>
      cases htg : lookupT targetTree rel with
      | some c => simp [removeT, htg, isOkE]
      | none => simp [removeT, htg, isOkE]
  · unfold handleTemplateEvent
    cases hd : lookupT diffTree rel with
    | some c => simp [isOkE]
    | none =>
      cases htg : lookupT targetTree rel with
      | some c => simp [removeT, htg, isOkE]
      | none => simp [removeT, htg, isOkE]
  · intro hd
    simp [handleDiffEvent, copyFileT, hd]
  · intro hd ht
    simp [handleTemplateEvent, copyFileT, hd, ht]
  · intro htg
    simp [handleTargetEvent, copyFileT, htg]

/-- C8 witness: the amended statement at concrete empty trees, with every
hypothesis discharged. -/
theorem c8_witness :
    isOkE (handleDiffEvent [] [] [] EType.delete ["a"]) = true ∧
    isOkE (handleTemplateEvent [] [] [] EType.delete ["a"]) = true ∧
    handleDiffEvent [] [] [] EType.create ["a"] = Except.error "ENOENT" ∧
    handleTemplateEvent [] [] [] EType.create ["a"] = Except.error "ENOENT" ∧
    handleTargetEvent [] [] EType.update ["a"] = Except.error "ENOENT" :=
  ⟨(c8_only_delete_branches_swallow [] [] [] ["a"]).1,
   (c8_only_delete_branches_swallow [] [] [] ["a"]).2.1,
   (c8_only_delete_branches_swallow [] [] [] ["a"]).2.2.1 rfl,
   (c8_only_delete_branches_swallow [] [] [] ["a"]).2.2.2.1 rfl rfl,
   (c8_only_delete_branches_swallow [] [] [] ["a"]).2.2.2.2 rfl⟩

/-- C9: `applyTemplateDiff` awaits both manifest parses before the first
copy pass, so a missing or unparsable `package.json` on either side fails
the whole operation before anything is written to the target: the result is
an error, and (the model being a function from the previous target tree to
the next) the caller's target tree is left exactly as it was. -/
theorem c9_parse_failure_no_write (templateDir diffDirectory : Path)
    (template diff : Tree) (dP tP : Option PkgJson) (target : Tree)
    (h : dP = none ∨ tP = none) :
    applyTemplateDiff templateDir diffDirectory template diff dP tP target =
      Except.error "Cannot read or parse package.json" := by
  cases h with
  | inl hd => subst hd; cases tP <;> rfl
  | inr ht =>
    subst ht
    cases dP with
    | none => rfl
    | some p => rfl

/-- C9 witness: a failing diff-manifest parse with a nonempty template tree
produces the error. -/
theorem c9_witness :
    applyTemplateDiff ["t"] ["d"] [(["a"], "x")] [] none (some emptyPkg) [] =
      Except.error "Cannot read or parse package.json" :=
  c9_parse_failure_no_write ["t"] ["d"] [(["a"], "x")] [] none (some emptyPkg)
    [] (Or.inl rfl)

/-- C4 counterexample: a `build` script containing the whitespace-preceded
`--diff` token twice still contains one occurrence after the manifest merge,
because `replace(/\s+--diff/, '')` has no global flag and removes only the
leftmost match — refuting the claim that every occurrence is removed. -/
theorem c4_counterexample :
    (mergeManifests emptyPkg
        ⟨none, none, some [("build", "vite build --diff --diff")], none⟩).scripts =
      some [("build", "vite build --diff")] ∧
    containsWsDiff ("vite build --diff".toList) = true :=
  ⟨by decide, by decide⟩

/-- C4 (amended): after the manifest merge step, for each of the script keys
`build`, `dev` and `preview` whose merged value is a non-empty string, only
the first (leftmost) occurrence of one-or-more whitespace characters
followed by `--diff` is removed — the replacement is non-global — so
`vite build --diff` becomes `vite build`, but a script containing the token
more than once keeps the later occurrences. -/
theorem c4_strip_first_occurrence (tPkg dPkg : PkgJson)
    (scr : List (String × String)) (k s : String)
    (hscr : (mergeDocs tPkg dPkg).scripts = some scr)
    (hk : k = "build" ∨ k = "dev" ∨ k = "preview")
    (hs : lookupKV scr k = some s) (hne : s ≠ "") :
    ∃ scr2, (mergeManifests tPkg dPkg).scripts = some scr2 ∧
      lookupKV scr2 k = some (stripDiff s) := by
  unfold mergeManifests
  rw [applySkipDevDeps_scripts, applySkipDeps_scripts]
  have hpin : (pinCliHydrogen tPkg (mergeDocs tPkg dPkg)).scripts = some scr := by
    rw [pinCliHydrogen_scripts]
    exact hscr
  unfold stripScripts
  rw [hpin]
  dsimp only
  refine ⟨_, rfl, ?_⟩
  rcases hk with hk | hk | hk
  · subst hk
    rw [stripScriptKey_other _ "preview" "build" (by decide),
      stripScriptKey_other _ "dev" "build" (by decide),
      stripScriptKey_self scr "build" s hs hne]
  · subst hk
    have h2 : lookupKV (stripScriptKey scr "build") "dev" = some s := by
      rw [stripScriptKey_other scr "build" "dev" (by decide)]
      exact hs
    rw [stripScriptKey_other _ "preview" "dev" (by decide),
      stripScriptKey_self _ "dev" s h2 hne]
  · subst hk
    have h2 : lookupKV (stripScriptKey (stripScriptKey scr "build") "dev")
        "preview" = some s := by
      rw [stripScriptKey_other _ "dev" "preview" (by decide),
        stripScriptKey_other _ "build" "preview" (by decide)]
      exact hs
    rw [stripScriptKey_self _ "preview" s h2 hne]

/-- C4 witness: the single-occurrence example of the spec, through the
amended theorem. -/
theorem c4_witness :
    ∃ scr2, (mergeManifests emptyPkg
        ⟨none, none, some [("build", "vite build --diff")], none⟩).scripts =
      some scr2 ∧
      lookupKV scr2 "build" = some (stripDiff "vite build --diff") :=
  c4_strip_first_occurrence emptyPkg
    ⟨none, none, some [("build", "vite build --diff")], none⟩
    [("build", "vite build --diff")] "build" "vite build --diff" rfl
    (Or.inl rfl) rfl (by decide)

/-- C5 counterexample: when the template manifest has no `dependencies`
object at all, the pin is skipped (the guard requires both objects to be
truthy), so the merged entry for `@shopify/cli-hydrogen` keeps the diff's
value `9.9.9` instead of the claimed wildcard `*` — refuting the claim for
merged results that do have a dependencies object. -/
theorem c5_counterexample :
    (mergeManifests emptyPkg
        ⟨some [("@shopify/cli-hydrogen", "9.9.9")], none, none, none⟩).dependencies =
      some [("@shopify/cli-hydrogen", "9.9.9")] ∧
    ("9.9.9" : String) ≠ "*" ∧ emptyPkg.dependencies = none :=
  ⟨by decide, by decide, rfl⟩

/-- C5 (amended): provided the template manifest itself has a
`dependencies` object and the package is not listed in the diff options'
`skipDependencies`, the merged manifest's `dependencies` entry for
`@shopify/cli-hydrogen` equals the template's declared version for that
package, or the wildcard `*` when the template's dependencies lack the
entry; when the template manifest has no dependencies object, the pin is
skipped and the diff's value is kept. -/
theorem c5_pin_requires_template_deps (tPkg dPkg : PkgJson)
    (tdeps : List (String × String))
    (ht : tPkg.dependencies = some tdeps)
    (hskip : cliHydrogen ∉ (dPkg.h2Diff.getD noOptions).skipDependencies.getD []) :
    ∃ mdeps, (mergeManifests tPkg dPkg).dependencies = some mdeps ∧
      lookupKV mdeps cliHydrogen = some ((lookupKV tdeps cliHydrogen).getD "*") := by
  unfold mergeManifests
  rw [applySkipDevDeps_deps]
  obtain ⟨deps0, hdeps0⟩ :
      ∃ deps0, (mergeDocs tPkg dPkg).dependencies = some deps0 := by
    cases hd : dPkg.dependencies with
    | some d => exact ⟨d, by simp [mergeDocs, overrideKey, hd]⟩
    | none => exact ⟨tdeps, by simp [mergeDocs, overrideKey, hd, ht]⟩
  have hpin : (pinCliHydrogen tPkg (mergeDocs tPkg dPkg)).dependencies =
      some (setKV deps0 cliHydrogen ((lookupKV tdeps cliHydrogen).getD "*")) := by
    unfold pinCliHydrogen
    rw [hdeps0, ht]
  have hstrip : (stripScripts (pinCliHydrogen tPkg (mergeDocs tPkg dPkg))).dependencies =
      some (setKV deps0 cliHydrogen ((lookupKV tdeps cliHydrogen).getD "*")) := by
    rw [stripScripts_deps]
    exact hpin
  unfold applySkipDeps
  cases hsk : (dPkg.h2Diff.getD noOptions).skipDependencies with
  | none =>
    rw [hstrip]
    exact ⟨_, rfl, lookupKV_setKV_self deps0 cliHydrogen _⟩
  | some skips =>
    rw [hstrip]
    refine ⟨_, rfl, ?_⟩
    rw [hsk] at hskip
    rw [lookupKV_foldl_delKV skips _ cliHydrogen (by simpa using hskip)]
    exact lookupKV_setKV_self deps0 cliHydrogen _

/-- C5 witness: the spec's own example — the template declares `^3.0.0`, the
diff declares only another package, and the merged entry is `^3.0.0`. -/
theorem c5_witness :
    ∃ mdeps, (mergeManifests
        ⟨some [("@shopify/cli-hydrogen", "^3.0.0")], none, none, none⟩
        ⟨some [("a", "1.0.0")], none, none, none⟩).dependencies = some mdeps ∧
      lookupKV mdeps cliHydrogen =
        some ((lookupKV [("@shopify/cli-hydrogen", "^3.0.0")] cliHydrogen).getD "*") :=
  c5_pin_requires_template_deps
    ⟨some [("@shopify/cli-hydrogen", "^3.0.0")], none, none, none⟩
    ⟨some [("a", "1.0.0")], none, none, none⟩
    [("@shopify/cli-hydrogen", "^3.0.0")] rfl (by decide)

/-- C1: for a template tree and a diff tree sharing a relative path that is
excluded by neither copy pass (the filters applied to the file and each of
its ancestor directories), `applyTemplateDiff` succeeds and the target holds
the diff's contents for that path, because the diff copy pass runs after
the template copy pass and overwrites. The hypotheses `hdirs` (the diff
directory is not a filesystem prefix of the template directory) and
`hnodup` (a tree binds each path once) are well-formedness of the inputs. -/
theorem c1_diff_wins (templateDir diffDirectory : Path)
    (template diff target : Tree) (dPkg tPkg : PkgJson) (rel : Path)
    (cT cD : String)
    (hdirs : subdir diffDirectory templateDir = false)
    (hnodup : (diff.map Prod.fst).Nodup)
    (_hT : lookupT template rel = some cT)
    (hD : lookupT diff rel = some cD)
    (_hfT : copyAccepted (createFilter templateDir templateAlts
      (some ((dPkg.h2Diff.getD noOptions).skipFiles.getD []))) templateDir rel
      = true)
    (hfD : copyAccepted (createFilter templateDir diffAlts none) diffDirectory
      rel = true) :
    ∃ res, applyTemplateDiff templateDir diffDirectory template diff
        (some dPkg) (some tPkg) target = Except.ok res ∧
      lookupT res rel = some cD := by
  have hne : pkgJsonPath ≠ rel := by
    intro e
    have hacc := copyAccepted_self _ _ _ hfD
    rw [← e, diffFilter_pkgjson templateDir diffDirectory hdirs] at hacc
    cases hacc
  refine ⟨_, rfl, ?_⟩
  unfold insertT
  rw [lookupT_cons, if_neg hne]
  exact copyDir_lookup_found _ diffDirectory diff _ rel cD hnodup hD hfD

/-- C1 witness: concrete disjoint directories, one overlapping file accepted
by both filters; the target ends with the diff's contents. -/
theorem c1_witness :
    ∃ res, applyTemplateDiff ["tpl"] ["diff"] [(["app", "x"], "fromT")]
        [(["app", "x"], "fromD")] (some emptyPkg) (some emptyPkg) [] =
      Except.ok res ∧ lookupT res ["app", "x"] = some "fromD" :=
  c1_diff_wins ["tpl"] ["diff"] [(["app", "x"], "fromT")]
    [(["app", "x"], "fromD")] [] emptyPkg emptyPkg ["app", "x"] "fromT" "fromD"
    (by decide) (by decide) rfl rfl (by decide) (by decide)

/-- The diff-pass regex matches a segment made of any non-newline character
followed by `turbo`, since its `.turbo` alternative begins with the
unescaped-dot wildcard. -/
theorem scan_anyTurbo (c : Char) (h : c ≠ '\n') :
    scanRe diffAlts true
      (c :: 't' :: 'u' :: 'r' :: 'b' :: 'o' :: '/' :: 'f' :: []) = true := by
  have hb : (c != '\n') = true := by
    simp only [bne_iff_ne, ne_eq]
    exact h
  unfold scanRe matchHere
  simp [diffAlts, lits, matchAlt, matchTok, hb, boundaryEnd, isSep]

/-- C10: in the diff-to-target pass the `.turbo` entry of the exclusion
regex has an unescaped dot, so a path with a segment made of any single
(non-newline) character followed by `turbo` — for example `xturbo` — is
excluded from that copy, whereas the template-to-target pass accepts
`xturbo` and excludes only the literal `.turbo` segment. -/
theorem c10_unescaped_dot (c : Char) (h : c ≠ '\n') :
    createFilter ["tpl"] diffAlts none
      (["diff"] ++ [String.mk (c :: 't' :: 'u' :: 'r' :: 'b' :: 'o' :: []), "f"])
      = false ∧
    createFilter ["tpl"] templateAlts (some []) (["tpl"] ++ ["xturbo", "f"])
      = true ∧
    createFilter ["tpl"] templateAlts (some []) (["tpl"] ++ [".turbo", "f"])
      = false := by
  refine ⟨?_, by decide, by decide⟩
  unfold createFilter
  have hrel : relativePath ["tpl"]
      (["diff"] ++ [String.mk (c :: 't' :: 'u' :: 'r' :: 'b' :: 'o' :: []), "f"]) =
      ["..", "diff", String.mk (c :: 't' :: 'u' :: 'r' :: 'b' :: 'o' :: []), "f"] := by
    rfl
  rw [hrel]
  dsimp only
  have hchars : segsChars
      ["..", "diff", String.mk (c :: 't' :: 'u' :: 'r' :: 'b' :: 'o' :: []), "f"] =
      '.' :: '.' :: '/' :: 'd' :: 'i' :: 'f' :: 'f' :: '/' :: c :: 't' :: 'u' ::
        'r' :: 'b' :: 'o' :: '/' :: 'f' :: [] := by
    rfl
  rw [hchars]
  have h2 : scanRe diffAlts true
      ('d' :: 'i' :: 'f' :: 'f' :: '/' :: c :: 't' :: 'u' :: 'r' :: 'b' :: 'o' ::
        '/' :: 'f' :: []) = true :=
    scan_append_sep diffAlts _ (scan_anyTurbo c h) ('d' :: 'i' :: 'f' :: 'f' :: [])
      true
  have hsc : scanRe diffAlts true
      ('.' :: '.' :: '/' :: 'd' :: 'i' :: 'f' :: 'f' :: '/' :: c :: 't' :: 'u' ::
        'r' :: 'b' :: 'o' :: '/' :: 'f' :: []) = true :=
    scan_append_sep diffAlts _ h2 ('.' :: '.' :: []) true
  rw [hsc]
  rfl

/-- C10 witness: the `xturbo` example from the claim. -/
theorem c10_witness :
    createFilter ["tpl"] diffAlts none
      (["diff"] ++ [String.mk ('x' :: 't' :: 'u' :: 'r' :: 'b' :: 'o' :: []), "f"])
      = false ∧
    createFilter ["tpl"] templateAlts (some []) (["tpl"] ++ ["xturbo", "f"])
      = true ∧
    createFilter ["tpl"] templateAlts (some []) (["tpl"] ++ [".turbo", "f"])
      = false :=
  c10_unescaped_dot 'x' (by decide)

end TemplateDiff
